import Mathlib

/-!
# Verification of the BSMS (BIP-129) engine of `shared/bsms.py`

A shallow embedding of the token lifecycle, cryptographic envelope,
settings persistence and round-1/round-2 flows of the BSMS implementation,
together with theorems settling the frozen claims about it.

Conventions:
* Python byte strings are `List Nat` with each element `< 256`.
* Python `str` is Lean `String`; `str.encode("utf-8")`/`bytes.decode()` are
  modelled by a concrete UTF-8 codec below.
* Fallible Python code (raising exceptions) returns `Except String α`.
* Primitives of the `ngu` C module (hashes, HMAC, PBKDF2, AES-CTR keystream)
  are not part of the sources under verification; they enter as arbitrary
  function parameters, so every theorem holds for the real primitives.
-/

namespace BSMS

/-! ## Python `str.encode("utf-8")` / `bytes.decode()` -/

/-- UTF-8 encoding of a single character.  Python `str` characters are
Unicode scalar values, exactly as Lean `Char`, and `str.encode("utf-8")`
emits this standard 1-to-4-byte sequence for each of them. -/
def utf8EncodeChar (c : Char) : List Nat :=
  let n := c.toNat
  if n < 0x80 then [n]
  else if n < 0x800 then [0xC0 + n / 0x40, 0x80 + n % 0x40]
  else if n < 0x10000 then
    [0xE0 + n / 0x1000, 0x80 + (n / 0x40) % 0x40, 0x80 + n % 0x40]
  else
    [0xF0 + n / 0x40000, 0x80 + (n / 0x1000) % 0x40, 0x80 + (n / 0x40) % 0x40, 0x80 + n % 0x40]

/-- Python `str.encode("utf-8")`, as a list of byte values. -/
def utf8Encode (s : String) : List Nat :=
  (s.data.map utf8EncodeChar).flatten

/-- Decode the continuation of a two-byte UTF-8 sequence with lead byte
`b0`; `go` decodes the remaining bytes.  Rejects a malformed continuation
byte and an overlong encoding (value below U+0080). -/
def utf8DecodeTwo (go : List Nat → Option (List Char)) (b0 : Nat) :
    List Nat → Option (List Char)
  | b1 :: rest =>
    if 0x80 ≤ b1 ∧ b1 < 0xC0 then
      if 0x80 ≤ (b0 - 0xC0) * 0x40 + (b1 - 0x80) then
        (go rest).map (fun cs => Char.ofNat ((b0 - 0xC0) * 0x40 + (b1 - 0x80)) :: cs)
      else none
    else none
  | [] => none

/-- Decode the continuation of a three-byte UTF-8 sequence: rejects
malformed continuation bytes, overlong encodings (below U+0800) and
surrogate code points. -/
def utf8DecodeThree (go : List Nat → Option (List Char)) (b0 : Nat) :
    List Nat → Option (List Char)
  | b1 :: b2 :: rest =>
    if (0x80 ≤ b1 ∧ b1 < 0xC0) ∧ (0x80 ≤ b2 ∧ b2 < 0xC0) then
      if 0x800 ≤ (b0 - 0xE0) * 0x1000 + (b1 - 0x80) * 0x40 + (b2 - 0x80) ∧
          ((b0 - 0xE0) * 0x1000 + (b1 - 0x80) * 0x40 + (b2 - 0x80) < 0xD800 ∨
            0xDFFF < (b0 - 0xE0) * 0x1000 + (b1 - 0x80) * 0x40 + (b2 - 0x80)) then
        (go rest).map (fun cs => Char.ofNat ((b0 - 0xE0) * 0x1000 + (b1 - 0x80) * 0x40 + (b2 - 0x80)) :: cs)
      else none
    else none
  | _ => none

/-- Decode the continuation of a four-byte UTF-8 sequence: rejects
malformed continuation bytes, overlong encodings (below U+10000) and values
above U+10FFFF. -/
def utf8DecodeFour (go : List Nat → Option (List Char)) (b0 : Nat) :
    List Nat → Option (List Char)
  | b1 :: b2 :: b3 :: rest =>
    if (0x80 ≤ b1 ∧ b1 < 0xC0) ∧ (0x80 ≤ b2 ∧ b2 < 0xC0) ∧ (0x80 ≤ b3 ∧ b3 < 0xC0) then
      if 0x10000 ≤ (b0 - 0xF0) * 0x40000 + (b1 - 0x80) * 0x1000 + (b2 - 0x80) * 0x40 + (b3 - 0x80) ∧
          (b0 - 0xF0) * 0x40000 + (b1 - 0x80) * 0x1000 + (b2 - 0x80) * 0x40 + (b3 - 0x80) < 0x110000 then
        (go rest).map (fun cs =>
          Char.ofNat ((b0 - 0xF0) * 0x40000 + (b1 - 0x80) * 0x1000 + (b2 - 0x80) * 0x40 + (b3 - 0x80)) :: cs)
      else none
    else none
  | _ => none

/-- Fuel-driven UTF-8 decoding loop; each step consumes at least one byte,
so fuel `≥` the list length never runs out. -/
def utf8DecodeAux : Nat → List Nat → Option (List Char)
  | _, [] => some []
  | 0, _ :: _ => none
  | fuel + 1, b0 :: rest =>
    if b0 < 0x80 then (utf8DecodeAux fuel rest).map (fun cs => Char.ofNat b0 :: cs)
    else if b0 < 0xC0 then none
    else if b0 < 0xE0 then utf8DecodeTwo (utf8DecodeAux fuel) b0 rest
    else if b0 < 0xF0 then utf8DecodeThree (utf8DecodeAux fuel) b0 rest
    else utf8DecodeFour (utf8DecodeAux fuel) b0 rest

/-- Strict UTF-8 decoding, as Python `bytes.decode()`: rejects truncated
sequences, stray continuation bytes, overlong encodings, surrogate code
points and values above U+10FFFF.  Returns the decoded characters, or
`none` when the bytes are not valid UTF-8. -/
def utf8Decode (l : List Nat) : Option (List Char) := utf8DecodeAux l.length l

/-! ## Hex strings: `ubinascii.unhexlify` and hex-character tests -/

/-- Python `str.startswith`, at the character level (Lean's own
`String.startsWith` is not kernel-reducible, so the model uses this
equivalent definition). -/
def pyStartsWith (s pfx : String) : Bool := pfx.data.isPrefixOf s.data

/-- Numeric value of a hex digit character, if it is one. -/
def hexDigitVal (c : Char) : Option Nat :=
  if '0' ≤ c ∧ c ≤ '9' then some (c.toNat - '0'.toNat)
  else if 'a' ≤ c ∧ c ≤ 'f' then some (c.toNat - 'a'.toNat + 10)
  else if 'A' ≤ c ∧ c ≤ 'F' then some (c.toNat - 'A'.toNat + 10)
  else none

/-- Is `c` one of `0-9`, `a-f`, `A-F`? -/
def isHexChar (c : Char) : Bool := (hexDigitVal c).isSome

/-- The claim's notion of a string "consisting purely of hexadecimal
characters". -/
def pureHex (s : String) : Bool := s.data.all isHexChar

/-- Decode consecutive pairs of hex digits into bytes. -/
def hexPairs : List Char → Option (List Nat)
  | [] => some []
  | [_] => none
  | c1 :: c2 :: rest =>
    match hexDigitVal c1, hexDigitVal c2, hexPairs rest with
    | some hi, some lo, some bs => some ((hi * 16 + lo) :: bs)
    | _, _, _ => none

/-- Python `ubinascii.unhexlify` (imported as `a2b_hex`): hex string to raw
bytes; fails (raises) on odd length or a non-hex character. -/
def a2b_hex (s : String) : Option (List Nat) := hexPairs s.data

/-! ## Python `int(s, 16)` -/

/-- Whitespace accepted around numbers by Python's integer parser. -/
def isPyWs (c : Char) : Bool :=
  c == ' ' || c == '\t' || c == '\n' || c == '\r' || c == '\x0b' || c == '\x0c'

/-- Drop an optional leading sign. -/
def stripSign : List Char → List Char
  | [] => []
  | c :: r => if c = '+' ∨ c = '-' then r else c :: r

/-- Drop an optional `0x` / `0X` prefix (accepted by `int(·, 16)`). -/
def stripHexPfx : List Char → List Char
  | c0 :: c1 :: r => if c0 = '0' ∧ (c1 = 'x' ∨ c1 = 'X') then r else c0 :: c1 :: r
  | l => l

/-- Modelled from the spec and Python semantics: the success predicate of the
builtin `int(s, 16)` used by `validate_token` (the builtin is not part of the
sources).  It accepts optional surrounding whitespace, an optional sign, an
optional `0x`/`0X` prefix, and then hex digits; MicroPython additionally
tolerates `_` digit separators, provided at least one real digit is present. -/
def pyInt16Parses (s : String) : Bool :=
  let l := ((s.data.dropWhile isPyWs).reverse.dropWhile isPyWs).reverse
  let l := stripHexPfx (stripSign l)
  !l.isEmpty && l.all (fun c => isHexChar c || c == '_') && l.any isHexChar

/-! ## Token functions (`normalize_token`, `validate_token`) -/

/-- `normalize_token` of `bsms.py`: remove a leading `0x`/`0X`
(`token_hex[:2] in ["0x", "0X"]` inspects the first two characters). -/
def normalize_token (token_hex : String) : String :=
  match token_hex.data with
  | '0' :: 'x' :: r => String.mk r
  | '0' :: 'X' :: r => String.mk r
  | _ => token_hex

/-- `validate_token` of `bsms.py`: accept the sentinel `"00"`; otherwise
require `int(token_hex, 16)` to parse and the length to be 16 or 32. -/
def validate_token (token_hex : String) : Except String Unit :=
  if token_hex = "00" then .ok ()
  else if pyInt16Parses token_hex then
    if token_hex.length = 16 ∨ token_hex.length = 32 then .ok ()
    else .error "Invalid token length. Expected 64 or 128 bits (16 or 32 hex characters)"
  else .error ("Invalid token: " ++ token_hex)

/-! ## Cryptographic primitives of `ngu` (parameters) -/

/-- Modelled from the spec: the cryptographic primitives supplied by the
`ngu` C module, which is not among the sources under verification:
`ngu.hash.pbkdf2_sha512`, `ngu.hash.sha256s`, `ngu.hmac.hmac_sha256`, and
the keystream of `ngu.aes.CTR` (a function of key and IV giving the byte at
each position).  They are arbitrary deterministic functions of their inputs,
so every theorem below holds in particular for the real primitives. -/
structure CryptoPrims where
  pbkdf2_sha512 : List Nat → List Nat → Nat → List Nat
  sha256s : List Nat → List Nat
  hmac_sha256 : List Nat → List Nat → List Nat
  keystream : List Nat → List Nat → Nat → Nat

/-- XOR data against successive keystream bytes starting at position `i` —
the CTR-mode stream-cipher step shared by encryption and decryption. -/
def ctrXor (ks : Nat → Nat) : Nat → List Nat → List Nat
  | _, [] => []
  | i, b :: bs => (b ^^^ ks i % 256) :: ctrXor ks (i + 1) bs

/-- `ngu.aes.CTR(key, iv).cipher(data)`: CTR mode applies the same keystream
XOR for encryption and decryption. -/
def aesCTR (P : CryptoPrims) (key iv data : List Nat) : List Nat :=
  ctrXor (P.keystream key iv) 0 data

/-! ## Key derivation and envelope (`bsms.py` lines 66–103) -/

/-- `key_derivation_function` of `bsms.py`: `None` for the sentinel,
otherwise the first 32 bytes of PBKDF2-HMAC-SHA512 with password
`"No SPOF"`, salt `a2b_hex(token_hex)` and 2048 iterations.  `a2b_hex`
failure propagates as an exception. -/
def key_derivation_function (P : CryptoPrims) (token_hex : String) :
    Except String (Option (List Nat)) :=
  if token_hex = "00" then .ok none
  else
    match a2b_hex token_hex with
    | some salt => .ok (some ((P.pbkdf2_sha512 (utf8Encode "No SPOF") salt 2048).take 32))
    | none => .error "ValueError: non-hex digit found"

/-- `hmac_key` of `bsms.py`: the MAC key is SHA-256 of the symmetric key. -/
def hmac_key (P : CryptoPrims) (key : List Nat) : List Nat := P.sha256s key

/-- `msg_auth_code` of `bsms.py`: HMAC-SHA-256 over the UTF-8 bytes of
`token_hex + data`. -/
def msg_auth_code (P : CryptoPrims) (key : List Nat) (token_hex data : String) : List Nat :=
  P.hmac_sha256 key (utf8Encode (token_hex ++ data))

/-- `bsms_encrypt` of `bsms.py`. -/
def bsms_encrypt (P : CryptoPrims) (key : List Nat) (token_hex data_str : String) : List Nat :=
  let hmac_k := hmac_key P key
  let mac := msg_auth_code P hmac_k token_hex data_str
  let iv := mac.take 16
  let ciphertext := aesCTR P key iv (utf8Encode data_str)
  mac ++ ciphertext

/-- `bsms_decrypt` of `bsms.py`: split off the 32-byte MAC, take the IV from
its first 16 bytes, run the CTR keystream over the remainder, and return the
plaintext only when it decodes as UTF-8 and starts with `"BSMS"`; any
failure yields the empty string. -/
def bsms_decrypt (P : CryptoPrims) (key : List Nat) (data_bytes : List Nat) : String :=
  let mac := data_bytes.take 32
  let ciphertext := data_bytes.drop 32
  let iv := mac.take 16
  let decrypted := aesCTR P key iv ciphertext
  match utf8Decode decrypted with
  | none => ""
  | some cs =>
    let plaintext := String.mk cs
    if pyStartsWith plaintext "BSMS" then plaintext else ""

/-! ## Persistent settings (`BSMSSettings`)

Python reference semantics matter here: `BSMSSettings.add` takes the dict
stored under the settings key `"bsms"`, makes a *shallow* `dict.copy()` as
its rollback snapshot, and then mutates the list objects that both dicts
share.  The model therefore keeps an explicit heap of list objects. -/

/-- The mutable state touched by `BSMSSettings`: a heap `store` of Python
list objects (addressed by position), the dict stored in settings memory
under `"bsms"` (bindings from `"s"`/`"c"` to heap addresses; `none` when the
key is absent), the last successfully persisted deep value of that dict, and
the count of `settings.save()` calls made so far. -/
structure PyBsms (V : Type) where
  store : List (List V)
  mem : Option (List (String × Nat))
  persisted : Option (List (String × List V))
  saveAttempts : Nat
deriving Repr, DecidableEq

/-- Read a dict of heap addresses down to a deep value. -/
def derefDict {V : Type} (store : List (List V)) (d : List (String × Nat)) :
    List (String × List V) :=
  d.map (fun kv => (kv.1, store.getD kv.2 []))

/-- Modelled from the spec: `settings.save()` of the `nvstore` settings
object (not among the verified sources; the spec calls the save atomic).
When the oracle `saveOk` grants this attempt the deep snapshot of the
in-memory settings is persisted; otherwise an error is raised and the
persisted value is untouched. -/
def settingsSave {V : Type} (saveOk : Nat → Bool) (st : PyBsms V) : PyBsms V × Bool :=
  if saveOk st.saveAttempts then
    ({ st with persisted := st.mem.map (derefDict st.store),
               saveAttempts := st.saveAttempts + 1 }, true)
  else
    ({ st with saveAttempts := st.saveAttempts + 1 }, false)

/-- `BSMSSettings.save`: try `settings.save()`; on failure write the
snapshot `orig` back under the `"bsms"` key, try to save once more
(swallowing a second failure), and raise `BSMSOutOfSpace` regardless. -/
def BSMSSettings_save {V : Type} (saveOk : Nat → Bool) (st : PyBsms V)
    (orig : List (String × Nat)) : PyBsms V × Except String Unit :=
  let s1 := settingsSave saveOk st
  if s1.2 then (s1.1, .ok ())
  else
    let st2 := { s1.1 with mem := some orig }
    let s3 := settingsSave saveOk st2
    (s3.1, .error "BSMSOutOfSpace")

/-- `BSMSSettings.add`: fetch the `"bsms"` dict (default `{}`), snapshot it
with a shallow `dict.copy()`, append `value` to the `who` list **in place**
(or bind a fresh one-element list), `settings.set` the dict back, and run
the save/rollback discipline of `BSMSSettings.save`. -/
def BSMSSettings_add {V : Type} (saveOk : Nat → Bool) (who : String) (value : V)
    (st : PyBsms V) : PyBsms V × Except String Unit :=
  let d := st.mem.getD []
  let orig := d                    -- `settings_bsms.copy()`: same list addresses
  match d.find? (fun kv => kv.1 == who) with
  | some kv =>
    -- `settings_bsms[who].append(value)` mutates the list `orig` also holds
    let store' := st.store.set kv.2 (st.store.getD kv.2 [] ++ [value])
    BSMSSettings_save saveOk { st with store := store', mem := some d } orig
  | none =>
    -- `settings_bsms[who] = [value]` allocates a fresh list; `orig` keeps its bindings
    let a := st.store.length
    BSMSSettings_save saveOk
      { st with store := st.store ++ [[value]], mem := some (d ++ [(who, a)]) } orig

/-- `BSMSSettings.delete`: fetch the `"bsms"` dict, and when `who` is bound,
`pop(index)` its list.  An in-range pop mutates the shared list and goes
through `settings.set` plus the save/rollback discipline; an out-of-range
pop raises `IndexError` before mutating anything, and the `except
IndexError: pass` swallows it with no `settings.set` and no save. -/
def BSMSSettings_delete {V : Type} (saveOk : Nat → Bool) (who : String) (index : Nat)
    (st : PyBsms V) : PyBsms V × Except String Unit :=
  let d := st.mem.getD []
  let orig := d
  match d.find? (fun kv => kv.1 == who) with
  | none => (st, .ok ())
  | some kv =>
    let lst := st.store.getD kv.2 []
    if index < lst.length then
      let store' := st.store.set kv.2 (lst.eraseIdx index)
      BSMSSettings_save saveOk { st with store := store', mem := some d } orig
    else
      (st, .ok ())

/-! ## Round-1 signer flow -/

/-- The protocol version line. -/
def BSMS_VERSION : String := "BSMS 1.0"

/-- The only path-restrictions line signer round 2 accepts. -/
def ALLOWED_PATH_RESTRICTIONS : String := "/0/*,/1/*"

/-- `signer_data_round1` of `bsms.py`: the four-line round-1 body, with the
base64 signature appended as a fifth line once signing has happened. -/
def signer_data_round1 (token_hex desc_type_key key_description : String)
    (sig : Option String) : String :=
  let result := BSMS_VERSION ++ "\n" ++ token_hex ++ "\n" ++ desc_type_key
    ++ "\n" ++ key_description
  match sig with
  | none => result
  | some s => result ++ "\n" ++ s

/-- `coordinator_data_round2` of `bsms.py`: the four-line round-2 payload. -/
def coordinator_data_round2 (desc_template addr : String) : String :=
  BSMS_VERSION ++ "\n" ++ desc_template ++ "\n" ++ ALLOWED_PATH_RESTRICTIONS ++ "\n" ++ addr

/-- `bsms_signer_round1` of `bsms.py` from the point where the token string
has been read from its input channel: validate, normalize, check the
description length, build and sign the round-1 body, envelope-encrypt it for
a non-sentinel token, and persist the canonical token as a SignerSession.
Device key material and base64 signing live outside the verified sources and
are abstracted into `desc_type_key` and `sign`.  The returned value carries
the emitted payload bytes and the token string that was persisted. -/
def bsms_signer_round1_model (P : CryptoPrims) (saveOk : Nat → Bool)
    (desc_type_key : String) (sign : String → String)
    (token_hex key_description : String) (st : PyBsms String) :
    PyBsms String × Except String (List Nat × String) :=
  match validate_token token_hex with
  | .error e => (st, .error e)
  | .ok () =>
    let t := normalize_token token_hex
    if key_description.length ≤ 80 then
      let msg := signer_data_round1 t desc_type_key key_description none
      let sig := sign msg
      let result_data := signer_data_round1 t desc_type_key key_description (some sig)
      match key_derivation_function P t with
      | .error e => (st, .error e)
      | .ok keyOpt =>
        let payload := match keyOpt with
          | none => utf8Encode result_data
          | some k => bsms_encrypt P k t result_data
        let r := BSMSSettings_add saveOk "s" t st
        (r.1, r.2.map (fun _ => (payload, t)))
    else
      (st, .error ("Description of the key, 80 char maximum (current: " ++
        toString key_description.length ++ " char)"))

/-! ## Coordinator round-1 bounds -/

/-- Modelled from the spec: `MAX_SIGNERS` of `public_constants.py` (not
among the verified sources); the spec bounds signers by "1 ≤ M ≤ N ≤ 15". -/
def MAX_SIGNERS : Nat := 15

/-- The two `assert` bounds checks opening `bsms_coordinator_round1`. -/
def bsms_coordinator_round1_checks (N M : Nat) : Except String Unit :=
  if 2 ≤ N ∧ N ≤ MAX_SIGNERS then
    if 1 ≤ M ∧ M ≤ N then .ok ()
    else .error ("M cannot be bigger than N (" ++ toString N ++ ") or smaller than 1")
  else .error "Number of signers must be in open interval (2..15)"

/-! ## Signer round-2 address agreement -/

/-- The address-agreement step closing `bsms_signer_round2`: derive every
descriptor key's node at external index 0 (non-hardened), assemble the
redeem script by sorted-multisig over the derived nodes, compute the first
address under the descriptor's address format, and require byte-equality
with the address line of the payload.  `HDNode.derive`,
`make_redeem_script` and `chain.p2sh_address` live in `ngu`, `multisig.py`
and `chains.py`, outside the verified sources, and enter as parameters. -/
def bsms_signer_round2_addr_check {Node Script : Type}
    (derive : Node → Nat → Bool → Node)
    (make_redeem_script : Nat → List Node → Nat → Script)
    (p2sh_address : Nat → Script → String)
    (M addr_fmt : Nat) (nodes : List Node) (addr : String) :
    Except String Unit :=
  let derived := nodes.map (fun n => derive n 0 false)
  let script := make_redeem_script M derived 0
  let calc_addr := p2sh_address addr_fmt script
  if calc_addr = addr then .ok ()
  else .error ("Address mismatch! Calculated " ++ calc_addr ++ ", got " ++ addr)

/-! ## Concrete instantiations used to evaluate the models on closed inputs -/

/-- A trivial concrete instantiation of the `ngu` primitives (constant
digests of the correct widths, zero keystream), used to evaluate the
parameterised models on closed inputs. -/
def trivPrims : CryptoPrims where
  pbkdf2_sha512 := fun _ _ _ => List.replicate 64 0
  sha256s := fun _ => List.replicate 32 0
  hmac_sha256 := fun _ _ => List.replicate 32 0
  keystream := fun _ _ _ => 0

/-- A settings state with nothing stored yet. -/
def emptyPyBsms : PyBsms String := ⟨[], none, none, 0⟩

/-! # Theorems

First general lemmas about the embedded operations, then one theorem per
claim (with its witness or counterexample). -/

/-! ## UTF-8 codec lemmas -/

theorem utf8DecodeTwo_congr (go1 go2 : List Nat → Option (List Char)) (b0 : Nat)
    (l : List Nat) (h : ∀ l', l'.length < l.length → go1 l' = go2 l') :
    utf8DecodeTwo go1 b0 l = utf8DecodeTwo go2 b0 l := by
  cases l with
  | nil => rfl
  | cons b1 rest =>
    simp only [utf8DecodeTwo]
    rw [h rest (by simp)]

theorem utf8DecodeThree_congr (go1 go2 : List Nat → Option (List Char)) (b0 : Nat)
    (l : List Nat) (h : ∀ l', l'.length < l.length → go1 l' = go2 l') :
    utf8DecodeThree go1 b0 l = utf8DecodeThree go2 b0 l := by
  match l with
  | [] => rfl
  | [b1] => rfl
  | b1 :: b2 :: rest =>
    simp only [utf8DecodeThree]
    rw [h rest (by simp; omega)]

theorem utf8DecodeFour_congr (go1 go2 : List Nat → Option (List Char)) (b0 : Nat)
    (l : List Nat) (h : ∀ l', l'.length < l.length → go1 l' = go2 l') :
    utf8DecodeFour go1 b0 l = utf8DecodeFour go2 b0 l := by
  match l with
  | [] => rfl
  | [b1] => rfl
  | [b1, b2] => rfl
  | b1 :: b2 :: b3 :: rest =>
    simp only [utf8DecodeFour]
    rw [h rest (by simp; omega)]

/-- The decoding loop is fuel-irrelevant once the fuel covers the length. -/
theorem utf8DecodeAux_congr : ∀ (f1 f2 : Nat) (l : List Nat),
    l.length ≤ f1 → l.length ≤ f2 → utf8DecodeAux f1 l = utf8DecodeAux f2 l := by
  intro f1
  induction f1 with
  | zero =>
    intro f2 l h1 _
    have : l = [] := List.length_eq_zero.mp (Nat.le_zero.mp h1)
    subst this
    cases f2 <;> rfl
  | succ fs ih =>
    intro f2 l h1 h2
    cases l with
    | nil => cases f2 <;> rfl
    | cons b0 rest =>
      cases f2 with
      | zero => simp at h2
      | succ ft =>
        simp only [utf8DecodeAux]
        have hrest : ∀ l' : List Nat, l'.length < rest.length + 1 →
            utf8DecodeAux fs l' = utf8DecodeAux ft l' := by
          intro l' hl'
          apply ih
          · simp at h1; omega
          · simp at h2; omega
        rw [ih ft rest (by simp at h1; omega) (by simp at h2; omega)]
        rw [utf8DecodeTwo_congr (utf8DecodeAux fs) (utf8DecodeAux ft) b0 rest
          (fun l1 hl1 => hrest l1 (by omega))]
        rw [utf8DecodeThree_congr (utf8DecodeAux fs) (utf8DecodeAux ft) b0 rest
          (fun l1 hl1 => hrest l1 (by omega))]
        rw [utf8DecodeFour_congr (utf8DecodeAux fs) (utf8DecodeAux ft) b0 rest
          (fun l1 hl1 => hrest l1 (by omega))]

theorem utf8Decode_nil : utf8Decode [] = some [] := rfl

/-- Decoding inverts encoding one character at a time. -/
theorem utf8Decode_encodeChar (c : Char) (l : List Nat) :
    utf8Decode (utf8EncodeChar c ++ l) = (utf8Decode l).map (fun cs => c :: cs) := by
  have hval : c.toNat < 0xd800 ∨ (0xdfff < c.toNat ∧ c.toNat < 0x110000) := c.valid
  by_cases h1 : c.toNat < 0x80
  · have he : utf8EncodeChar c = [c.toNat] := by rw [utf8EncodeChar]; simp [h1]
    rw [he, List.cons_append, List.nil_append]
    show utf8DecodeAux (c.toNat :: l).length (c.toNat :: l) = _
    simp only [List.length_cons]
    rw [utf8DecodeAux, if_pos h1, Char.ofNat_toNat]
    rfl
  · by_cases h2 : c.toNat < 0x800
    · have he : utf8EncodeChar c = [0xC0 + c.toNat / 0x40, 0x80 + c.toNat % 0x40] := by
        rw [utf8EncodeChar]; simp [h1, h2]
      rw [he, List.cons_append, List.cons_append, List.nil_append]
      show utf8DecodeAux (_ :: _ :: l).length _ = _
      simp only [List.length_cons]
      rw [utf8DecodeAux]
      rw [if_neg (by omega), if_neg (by omega), if_pos (by omega)]
      rw [utf8DecodeTwo]
      rw [if_pos (by omega : 0x80 ≤ 0x80 + c.toNat % 0x40 ∧ 0x80 + c.toNat % 0x40 < 0xC0)]
      have hv : (0xC0 + c.toNat / 0x40 - 0xC0) * 0x40 + (0x80 + c.toNat % 0x40 - 0x80)
          = c.toNat := by omega
      rw [hv]
      rw [if_pos (by omega), Char.ofNat_toNat]
      rw [utf8DecodeAux_congr (l.length + 1) l.length l (by omega) (by omega)]
      rfl
    · by_cases h3 : c.toNat < 0x10000
      · have he : utf8EncodeChar c =
            [0xE0 + c.toNat / 0x1000, 0x80 + (c.toNat / 0x40) % 0x40, 0x80 + c.toNat % 0x40] := by
          rw [utf8EncodeChar]; simp [h1, h2, h3]
        rw [he, List.cons_append, List.cons_append, List.cons_append, List.nil_append]
        show utf8DecodeAux (_ :: _ :: _ :: l).length _ = _
        simp only [List.length_cons]
        rw [utf8DecodeAux]
        rw [if_neg (by omega), if_neg (by omega), if_neg (by omega), if_pos (by omega)]
        rw [utf8DecodeThree]
        rw [if_pos (by constructor <;> omega)]
        have hv : (0xE0 + c.toNat / 0x1000 - 0xE0) * 0x1000 +
            (0x80 + (c.toNat / 0x40) % 0x40 - 0x80) * 0x40 + (0x80 + c.toNat % 0x40 - 0x80)
            = c.toNat := by omega
        rw [hv]
        rw [if_pos (by omega), Char.ofNat_toNat]
        rw [utf8DecodeAux_congr (l.length + 2) l.length l (by omega) (by omega)]
        rfl
      · have he : utf8EncodeChar c =
            [0xF0 + c.toNat / 0x40000, 0x80 + (c.toNat / 0x1000) % 0x40,
             0x80 + (c.toNat / 0x40) % 0x40, 0x80 + c.toNat % 0x40] := by
          rw [utf8EncodeChar]; simp [h1, h2, h3]
        rw [he, List.cons_append, List.cons_append, List.cons_append, List.cons_append,
          List.nil_append]
        show utf8DecodeAux (_ :: _ :: _ :: _ :: l).length _ = _
        simp only [List.length_cons]
        rw [utf8DecodeAux]
        rw [if_neg (by omega), if_neg (by omega), if_neg (by omega), if_neg (by omega)]
        rw [utf8DecodeFour]
        rw [if_pos (by refine ⟨⟨?_, ?_⟩, ⟨?_, ?_⟩, ?_, ?_⟩ <;> omega)]
        have hv : (0xF0 + c.toNat / 0x40000 - 0xF0) * 0x40000 +
            (0x80 + (c.toNat / 0x1000) % 0x40 - 0x80) * 0x1000 +
            (0x80 + (c.toNat / 0x40) % 0x40 - 0x80) * 0x40 + (0x80 + c.toNat % 0x40 - 0x80)
            = c.toNat := by omega
        rw [hv]
        rw [if_pos (by omega), Char.ofNat_toNat]
        rw [utf8DecodeAux_congr (l.length + 3) l.length l (by omega) (by omega)]
        rfl

theorem utf8Decode_encode_append (cs : List Char) (l : List Nat) :
    utf8Decode ((cs.map utf8EncodeChar).flatten ++ l) =
      (utf8Decode l).map (fun tl => cs ++ tl) := by
  induction cs with
  | nil =>
    simp only [List.map_nil, List.flatten_nil, List.nil_append]
    cases utf8Decode l <;> rfl
  | cons c cs ih =>
    simp only [List.map_cons, List.flatten_cons, List.append_assoc]
    rw [utf8Decode_encodeChar, ih]
    cases utf8Decode l <;> rfl

/-- The UTF-8 codec round-trips on every string. -/
theorem utf8Decode_utf8Encode (s : String) : utf8Decode (utf8Encode s) = some s.data := by
  have h := utf8Decode_encode_append s.data []
  simpa [utf8Encode, utf8Decode_nil] using h

theorem stringMk_data (s : String) : String.mk s.data = s := rfl

/-! ## Stream-cipher lemmas -/

/-- XOR with the same keystream twice is the identity. -/
theorem ctrXor_ctrXor (ks : Nat → Nat) (i : Nat) (l : List Nat) :
    ctrXor ks i (ctrXor ks i l) = l := by
  induction l generalizing i with
  | nil => rfl
  | cons b bs ih => simp [ctrXor, ih, Nat.xor_cancel_right]

/-- CTR-mode decryption inverts CTR-mode encryption under the same key/IV. -/
theorem aesCTR_aesCTR (P : CryptoPrims) (key iv data : List Nat) :
    aesCTR P key iv (aesCTR P key iv data) = data := by
  simp [aesCTR, ctrXor_ctrXor]

/-- A string with the `"BSMS"` marker is never the empty string. -/
theorem startsWithBSMS_ne_empty (s : String) (h : pyStartsWith s "BSMS" = true) : s ≠ "" := by
  intro he
  subst he
  exact absurd h (by decide)

/-! ## Claim C5 -/

/-- C5: for every symmetric key `K`, token `T` and plaintext `pt` that
begins with `"BSMS"`, decrypting the envelope produced by encrypting `pt`
under `K` and `T` returns `pt` exactly:
`bsms_decrypt(K, bsms_encrypt(K, T, pt)) = pt`.  The only assumption on the
abstract HMAC primitive is its real 32-byte digest width. -/
theorem C5_envelope_roundtrip (P : CryptoPrims) (key : List Nat) (T pt : String)
    (hlen : (msg_auth_code P (hmac_key P key) T pt).length = 32)
    (hpre : pyStartsWith pt "BSMS" = true) :
    bsms_decrypt P key (bsms_encrypt P key T pt) = pt := by
  unfold bsms_decrypt bsms_encrypt
  have h32 : (msg_auth_code P (hmac_key P key) T pt) =
      (msg_auth_code P (hmac_key P key) T pt).take 32 := by
    rw [List.take_of_length_le (by omega)]
  rw [show ((msg_auth_code P (hmac_key P key) T pt ++
      aesCTR P key ((msg_auth_code P (hmac_key P key) T pt).take 16) (utf8Encode pt)).take 32)
      = msg_auth_code P (hmac_key P key) T pt from by
    rw [List.take_append_of_le_length (by omega), ← h32]]
  rw [List.drop_append_of_le_length (by omega)]
  rw [show (msg_auth_code P (hmac_key P key) T pt).drop 32 = [] from
    List.drop_eq_nil_of_le (by omega)]
  rw [List.nil_append]
  dsimp only
  rw [aesCTR_aesCTR]
  rw [utf8Decode_utf8Encode]
  dsimp only
  rw [stringMk_data, if_pos hpre]

/-- Witness for C5 at a concrete key, token and plaintext. -/
theorem C5_envelope_roundtrip_witness :
    (msg_auth_code trivPrims (hmac_key trivPrims [1]) "00" "BSMS 1.0").length = 32 ∧
    pyStartsWith "BSMS 1.0" "BSMS" = true ∧
    bsms_decrypt trivPrims [1] (bsms_encrypt trivPrims [1] "00" "BSMS 1.0") = "BSMS 1.0" :=
  ⟨by rfl, by rfl, C5_envelope_roundtrip trivPrims [1] "00" "BSMS 1.0" (by rfl) (by rfl)⟩

/-! ## Claim C6 -/

/-- C6: for every key and every input of at least 32 bytes, envelope
decryption fails (returns the empty string, Python-falsy) precisely when
the AES-CTR-recovered plaintext is not valid UTF-8 or does not start with
`"BSMS"`; moreover the result depends on the stored 32-byte mac field only
through its first 16 bytes (the IV) — no HMAC is recomputed over the
recovered plaintext. -/
theorem C6_decrypt_no_hmac (P : CryptoPrims) (key data : List Nat) (_h32 : 32 ≤ data.length) :
    (bsms_decrypt P key data = "" ↔
      ¬ ∃ cs, utf8Decode (aesCTR P key (data.take 16) (data.drop 32)) = some cs ∧
        pyStartsWith (String.mk cs) "BSMS" = true) ∧
    (∀ data' : List Nat, data'.take 16 = data.take 16 → data'.drop 32 = data.drop 32 →
      bsms_decrypt P key data' = bsms_decrypt P key data) := by
  constructor
  · unfold bsms_decrypt
    dsimp only
    rw [List.take_take, show min 16 32 = 16 from by norm_num]
    cases hdec : utf8Decode (aesCTR P key (data.take 16) (data.drop 32)) with
    | none => simp
    | some cs =>
      dsimp only
      by_cases hbs : pyStartsWith (String.mk cs) "BSMS" = true
      · rw [if_pos hbs]
        constructor
        · intro he
          exact absurd he (startsWithBSMS_ne_empty _ hbs)
        · intro hno
          exact absurd ⟨cs, rfl, hbs⟩ hno
      · rw [if_neg hbs]
        constructor
        · rintro - ⟨cs', hcs', hbs'⟩
          obtain rfl : cs = cs' := by injection hcs'
          exact hbs hbs'
        · intro _; rfl
  · intro data' h16 h32'
    unfold bsms_decrypt
    dsimp only
    rw [List.take_take, List.take_take, show min 16 32 = 16 from by norm_num, h16, h32']

/-- Witness for C6 at a concrete 32-byte input. -/
theorem C6_decrypt_no_hmac_witness :
    bsms_decrypt trivPrims [] (List.replicate 32 0) = "" ↔
      ¬ ∃ cs, utf8Decode (aesCTR trivPrims [] ((List.replicate 32 0).take 16)
          ((List.replicate 32 0).drop 32)) = some cs ∧
        pyStartsWith (String.mk cs) "BSMS" = true :=
  (C6_decrypt_no_hmac trivPrims [] (List.replicate 32 0) (by rfl)).1

/-! ## Claim C7 -/

/-- C7: for every non-sentinel token `T` (with raw bytes `bs`), the derived
symmetric key is the first 32 bytes of PBKDF2-HMAC-SHA512 with password the
UTF-8 bytes of `"No SPOF"`, salt `bs` (the hex-decoded token) and 2048
iterations; for the sentinel `"00"` no key is derived; the MAC key is
SHA-256 of the symmetric key; and the IV used by the envelope is the first
16 bytes of HMAC-SHA-256 of the MAC key over the UTF-8 bytes of `T ++ pt`.
All derivations are deterministic, being functions of their inputs. -/
theorem C7_key_derivation (P : CryptoPrims) (T pt : String) (key bs : List Nat)
    (hT : T ≠ "00") (hbs : a2b_hex T = some bs) :
    key_derivation_function P T =
      .ok (some ((P.pbkdf2_sha512 (utf8Encode "No SPOF") bs 2048).take 32)) ∧
    key_derivation_function P "00" = .ok none ∧
    hmac_key P key = P.sha256s key ∧
    msg_auth_code P (P.sha256s key) T pt =
      P.hmac_sha256 (P.sha256s key) (utf8Encode (T ++ pt)) ∧
    bsms_encrypt P key T pt =
      msg_auth_code P (P.sha256s key) T pt ++
        aesCTR P key ((msg_auth_code P (P.sha256s key) T pt).take 16) (utf8Encode pt) := by
  refine ⟨?_, rfl, rfl, rfl, rfl⟩
  unfold key_derivation_function
  rw [if_neg hT, hbs]

/-- Witness for C7 at a concrete token. -/
theorem C7_key_derivation_witness :
    key_derivation_function trivPrims "aabb" =
      .ok (some ((trivPrims.pbkdf2_sha512 (utf8Encode "No SPOF") [0xaa, 0xbb] 2048).take 32)) :=
  (C7_key_derivation trivPrims "aabb" "x" [] [0xaa, 0xbb] (by decide) (by rfl)).1

/-! ## Claim C1 -/

/-- C1: in signer round 2 — once the descriptor is parsed and the device's
own key located — every key's node is derived at external index 0
(non-hardened), the redeem script is assembled by sorted multisig over the
derived nodes, the first address is computed under the descriptor's
format, and the round succeeds exactly when that computed address is
byte-equal to the address line carried in the payload; otherwise it rejects
with the address-mismatch error.  Holds for every instantiation of the
derivation, script-assembly and address primitives. -/
theorem C1_address_agreement {Node Script : Type}
    (derive : Node → Nat → Bool → Node)
    (make_redeem_script : Nat → List Node → Nat → Script)
    (p2sh_address : Nat → Script → String)
    (M addr_fmt : Nat) (nodes : List Node) (addr : String) :
    (bsms_signer_round2_addr_check derive make_redeem_script p2sh_address M addr_fmt nodes addr
        = .ok () ↔
      p2sh_address addr_fmt
        (make_redeem_script M (nodes.map (fun n => derive n 0 false)) 0) = addr) ∧
    (p2sh_address addr_fmt
        (make_redeem_script M (nodes.map (fun n => derive n 0 false)) 0) ≠ addr →
      bsms_signer_round2_addr_check derive make_redeem_script p2sh_address M addr_fmt nodes addr
        = .error ("Address mismatch! Calculated " ++
            p2sh_address addr_fmt
              (make_redeem_script M (nodes.map (fun n => derive n 0 false)) 0) ++
            ", got " ++ addr)) := by
  unfold bsms_signer_round2_addr_check
  dsimp only
  constructor
  · constructor
    · intro h
      by_contra hne
      rw [if_neg hne] at h
      exact Except.noConfusion h
    · intro hc
      rw [if_pos hc]
  · intro hne
    rw [if_neg hne]

/-- Witness for C1 at a concrete instantiation. -/
theorem C1_address_agreement_witness :
    bsms_signer_round2_addr_check (fun (n : Nat) _ _ => n) (fun _ _ _ => (0 : Nat))
      (fun _ _ => "addr") 2 0 [0, 1] "addr" = .ok () :=
  (C1_address_agreement (fun (n : Nat) _ _ => n) (fun _ _ _ => (0 : Nat))
    (fun _ _ => "addr") 2 0 [0, 1] "addr").1.mpr rfl

/-! ## Claim C8 -/

/-- C8: coordinator round 1 accepts the signer count `N` exactly when
`2 ≤ N ≤ 15` and the threshold `M` exactly when `1 ≤ M ≤ N`; in
particular `N = 2` and `N = 15` are accepted, `N = 1` and `N = 16` are
rejected, `M = 1` is accepted, and `M > N` is rejected. -/
theorem C8_coordinator_bounds :
    (∀ N M : Nat, bsms_coordinator_round1_checks N M = .ok () ↔
      (2 ≤ N ∧ N ≤ 15 ∧ 1 ≤ M ∧ M ≤ N)) ∧
    bsms_coordinator_round1_checks 2 1 = .ok () ∧
    bsms_coordinator_round1_checks 15 1 = .ok () ∧
    (∀ M : Nat, bsms_coordinator_round1_checks 1 M =
      .error "Number of signers must be in open interval (2..15)") ∧
    (∀ M : Nat, bsms_coordinator_round1_checks 16 M =
      .error "Number of signers must be in open interval (2..15)") ∧
    (∀ N : Nat, 2 ≤ N → N ≤ 15 → bsms_coordinator_round1_checks N 1 = .ok ()) ∧
    (∀ N M : Nat, N < M → bsms_coordinator_round1_checks N M ≠ .ok ()) := by
  have hiff : ∀ N M : Nat, bsms_coordinator_round1_checks N M = .ok () ↔
      (2 ≤ N ∧ N ≤ 15 ∧ 1 ≤ M ∧ M ≤ N) := by
    intro N M
    unfold bsms_coordinator_round1_checks MAX_SIGNERS
    by_cases h1 : 2 ≤ N ∧ N ≤ 15
    · rw [if_pos h1]
      by_cases h2 : 1 ≤ M ∧ M ≤ N
      · rw [if_pos h2]
        exact ⟨fun _ => ⟨h1.1, h1.2, h2.1, h2.2⟩, fun _ => rfl⟩
      · rw [if_neg h2]
        exact ⟨fun hc => Except.noConfusion hc, fun hh => absurd ⟨hh.2.2.1, hh.2.2.2⟩ h2⟩
    · rw [if_neg h1]
      exact ⟨fun hc => Except.noConfusion hc, fun hh => absurd ⟨hh.1, hh.2.1⟩ h1⟩
  refine ⟨hiff, (hiff 2 1).mpr (by omega), (hiff 15 1).mpr (by omega), ?_, ?_, ?_, ?_⟩
  · intro M
    unfold bsms_coordinator_round1_checks MAX_SIGNERS
    rw [if_neg (by omega)]
  · intro M
    unfold bsms_coordinator_round1_checks MAX_SIGNERS
    rw [if_neg (by omega)]
  · intro N hN2 hN15
    exact (hiff N 1).mpr (by omega)
  · intro N M hlt hc
    have := (hiff N M).mp hc
    omega

/-- Witness for C8 at concrete bounds. -/
theorem C8_coordinator_bounds_witness :
    bsms_coordinator_round1_checks 3 2 = .ok () :=
  (C8_coordinator_bounds.1 3 2).mpr (by omega)

/-! ## Character-class lemmas about Python `int(s, 16)` -/

theorem hexChar_not_ws (c : Char) (h : isHexChar c = true) : isPyWs c = false := by
  cases hw : isPyWs c
  · rfl
  · rcases (by simpa [isPyWs, Bool.or_eq_true, beq_iff_eq] using hw :
        ((((c = ' ' ∨ c = '\t') ∨ c = '\n') ∨ c = '\r') ∨ c = '\x0b') ∨ c = '\x0c') with
      ((((rfl | rfl) | rfl) | rfl) | rfl) | rfl <;> exact absurd h (by decide)

theorem hexChar_ne (c : Char) (h : isHexChar c = true) :
    c ≠ '+' ∧ c ≠ '-' ∧ c ≠ 'x' ∧ c ≠ 'X' := by
  refine ⟨?_, ?_, ?_, ?_⟩ <;> (rintro rfl; exact absurd h (by decide))

theorem dropWhile_ws_of_hex (l : List Char) (h : l.all isHexChar = true) :
    l.dropWhile isPyWs = l := by
  cases l with
  | nil => rfl
  | cons c r =>
    have hc : isHexChar c = true := by
      simp only [List.all_cons, Bool.and_eq_true] at h
      exact h.1
    simp [List.dropWhile_cons, hexChar_not_ws c hc]

theorem stripSign_of_hex (l : List Char) (h : l.all isHexChar = true) : stripSign l = l := by
  cases l with
  | nil => rfl
  | cons c r =>
    have hc : isHexChar c = true := by
      simp only [List.all_cons, Bool.and_eq_true] at h
      exact h.1
    have hne := hexChar_ne c hc
    simp only [stripSign]
    rw [if_neg (not_or.mpr ⟨hne.1, hne.2.1⟩)]

theorem stripHexPfx_of_hex (l : List Char) (h : l.all isHexChar = true) :
    stripHexPfx l = l := by
  match l with
  | [] => rfl
  | [c] => rfl
  | c0 :: c1 :: r =>
    have hc1 : isHexChar c1 = true := by
      simp only [List.all_cons, Bool.and_eq_true] at h
      exact h.2.1
    have hne := hexChar_ne c1 hc1
    simp only [stripHexPfx]
    rw [if_neg ?_]
    rintro ⟨-, rfl | rfl⟩
    · exact hne.2.2.1 rfl
    · exact hne.2.2.2 rfl

/-- The trailing `&&`-chain of `pyInt16Parses` holds for a nonempty all-hex
character list. -/
theorem hexTail_parses (l : List Char) (hne : l ≠ []) (h : l.all isHexChar = true) :
    (!l.isEmpty && l.all (fun c => isHexChar c || c == '_') && l.any isHexChar) = true := by
  cases l with
  | nil => exact absurd rfl hne
  | cons c r =>
    have hc : isHexChar c = true := by
      simp only [List.all_cons, Bool.and_eq_true] at h
      exact h.1
    simp only [Bool.and_eq_true, List.isEmpty_cons, Bool.not_false, List.any_eq_true]
    refine ⟨⟨by trivial, ?_⟩, c, List.mem_cons_self c r, hc⟩
    rw [List.all_eq_true] at h ⊢
    intro a ha
    simp [h a ha]

/-- A nonempty pure-hex string parses under Python `int(·, 16)`. -/
theorem pyInt16Parses_of_pureHex (T : String) (hne : T.data ≠ []) (h : pureHex T = true) :
    pyInt16Parses T = true := by
  unfold pyInt16Parses
  dsimp only
  have hall : T.data.all isHexChar = true := h
  have hrev : T.data.reverse.all isHexChar = true := by
    rw [List.all_eq_true] at hall ⊢
    intro a ha
    exact hall a (List.mem_reverse.mp ha)
  rw [dropWhile_ws_of_hex _ hall, dropWhile_ws_of_hex _ hrev, List.reverse_reverse,
    stripSign_of_hex _ hall, stripHexPfx_of_hex _ hall]
  exact hexTail_parses _ hne hall

/-- A `0x`/`0X`-prefixed nonempty pure-hex string also parses under Python
`int(·, 16)`: the parser strips the prefix itself. -/
theorem pyInt16Parses_of_prefixed_hex (x : Char) (hx : x = 'x' ∨ x = 'X') (h : String)
    (hne : h.data ≠ []) (hh : pureHex h = true) :
    pyInt16Parses (String.mk ('0' :: x :: h.data)) = true := by
  unfold pyInt16Parses
  have hall : h.data.all isHexChar = true := hh
  show (!(stripHexPfx (stripSign ((((('0' :: x :: h.data).dropWhile
      isPyWs).reverse.dropWhile isPyWs).reverse)))).isEmpty && _ && _) = true
  have hx' : isPyWs x = false := by rcases hx with rfl | rfl <;> rfl
  rw [List.dropWhile_cons]
  rw [show isPyWs '0' = false from rfl]
  simp only [Bool.false_eq_true, if_false]
  obtain ⟨c, r, hcr⟩ : ∃ c r, h.data.reverse = c :: r := by
    cases hrevc : h.data.reverse with
    | nil => exact absurd (by simpa using congrArg List.reverse hrevc) hne
    | cons c r => exact ⟨c, r, rfl⟩
  have hchex : isHexChar c = true := by
    rw [List.all_eq_true] at hall
    exact hall c (List.mem_reverse.mp (hcr ▸ List.mem_cons_self c r))
  rw [show ('0' :: x :: h.data).reverse = c :: (r ++ [x, '0']) from by
    simp [hcr]]
  rw [List.dropWhile_cons, hexChar_not_ws c hchex]
  simp only [Bool.false_eq_true, if_false]
  rw [show (c :: (r ++ [x, '0'])).reverse = '0' :: x :: h.data from by
    have := congrArg List.reverse hcr
    simp at this
    simp [← this]]
  rw [show stripSign ('0' :: x :: h.data) = '0' :: x :: h.data from by
    simp only [stripSign]
    rw [if_neg (by rintro (h0 | h0) <;> exact absurd h0 (by decide))]]
  rw [show stripHexPfx ('0' :: x :: h.data) = h.data from by
    simp only [stripHexPfx]
    rw [if_pos ⟨by trivial, hx⟩]]
  exact hexTail_parses _ hne hall

/-! ## Claim C3 -/

/-- C3 counterexample: `validate_token` accepts the 16-character string
`"0x12345678901234"`, which is not pure hex — Python `int(·, 16)` itself
strips a `0x` prefix — so "validation succeeds iff T consists purely of
hexadecimal characters and len(T) ∈ {16, 32}" fails as stated at this
non-sentinel input. -/
theorem C3_counterexample :
    validate_token "0x12345678901234" = .ok () ∧
    pureHex "0x12345678901234" = false ∧
    ("0x12345678901234" : String).length = 16 ∧
    ("0x12345678901234" : String) ≠ "00" :=
  ⟨rfl, rfl, rfl, by decide⟩

/-- C3 amended: for every non-sentinel token, a pure-hex string of length
16 or 32 is accepted and every accepted string has length 16 or 32 — but
acceptance is exactly `Python int(T, 16)` parsability together with the
length test, which is strictly wider than pure hex (e.g. `0x`-prefixed
strings).  The sentinel `"00"` is always accepted. -/
theorem C3_amended_validation (T : String) (hT : T ≠ "00") :
    (pureHex T = true → T.length = 16 ∨ T.length = 32 → validate_token T = .ok ()) ∧
    (validate_token T = .ok () → T.length = 16 ∨ T.length = 32) ∧
    (validate_token T = .ok () ↔
      pyInt16Parses T = true ∧ (T.length = 16 ∨ T.length = 32)) ∧
    validate_token "00" = .ok () := by
  have hiff : validate_token T = .ok () ↔
      pyInt16Parses T = true ∧ (T.length = 16 ∨ T.length = 32) := by
    unfold validate_token
    rw [if_neg hT]
    by_cases hp : pyInt16Parses T = true
    · rw [if_pos hp]
      by_cases hl : T.length = 16 ∨ T.length = 32
      · rw [if_pos hl]
        exact ⟨fun _ => ⟨hp, hl⟩, fun _ => rfl⟩
      · rw [if_neg hl]
        exact ⟨fun hc => Except.noConfusion hc, fun hh => absurd hh.2 hl⟩
    · rw [if_neg hp]
      exact ⟨fun hc => Except.noConfusion hc, fun hh => absurd hh.1 hp⟩
  refine ⟨?_, fun h => (hiff.mp h).2, hiff, rfl⟩
  intro hhex hlen
  apply hiff.mpr
  refine ⟨?_, hlen⟩
  apply pyInt16Parses_of_pureHex T ?_ hhex
  intro hnil
  have h0 : T.length = 0 := by
    show T.data.length = 0
    rw [hnil]
    rfl
  omega

/-- Witness for C3 (amended) at a concrete pure-hex token. -/
theorem C3_amended_validation_witness :
    validate_token "0123456789abcdef" = .ok () :=
  (C3_amended_validation "0123456789abcdef" (by decide)).1 (by decide) (Or.inl rfl)

/-! ## Claim C10 -/

/-- C10: for every settings state and every index at least the length of
the targeted session list (`"s"` or `"c"`; an absent key is the empty
list), `BSMSSettings.delete` is a silent no-op: the whole state — heap,
settings memory, persisted value and the save-attempt counter — is
returned unchanged, no save is attempted, and no error is signalled. -/
theorem C10_delete_out_of_range {V : Type} (saveOk : Nat → Bool) (who : String)
    (index : Nat) (st : PyBsms V)
    (h : ∀ kv, (st.mem.getD []).find? (fun kv => kv.1 == who) = some kv →
      (st.store.getD kv.2 []).length ≤ index) :
    BSMSSettings_delete saveOk who index st = (st, .ok ()) := by
  unfold BSMSSettings_delete
  dsimp only
  cases hf : (st.mem.getD []).find? (fun kv => kv.1 == who) with
  | none => rfl
  | some kv =>
    dsimp only
    rw [if_neg (by have := h kv hf; omega)]

/-- Witness for C10 at a concrete one-element signer list and index 5. -/
theorem C10_delete_out_of_range_witness :
    BSMSSettings_delete (fun _ => true) "s" 5
        (⟨[["aa"]], some [("s", 0)], some [("s", ["aa"])], 0⟩ : PyBsms String) =
      ((⟨[["aa"]], some [("s", 0)], some [("s", ["aa"])], 0⟩ : PyBsms String), .ok ()) :=
  C10_delete_out_of_range (fun _ => true) "s" 5 _ (by
    intro kv hkv
    rw [show (((some [("s", 0)] : Option (List (String × Nat))).getD []).find?
        (fun kv => kv.1 == "s")) = some ("s", 0) from rfl] at hkv
    injection hkv with h1
    subst h1
    decide)

/-! ## Claim C2 -/

/-- C2 (code bug): the rollback discipline of `BSMSSettings` does NOT
always restore the pre-modification BSMS state.  `BSMSSettings.add`
snapshots the dict with a shallow `dict.copy()` and then appends to the
list object both dicts share, so when the first save fails and the
rollback save succeeds, the persisted state still contains the appended
value.  Concretely: starting from persisted `{"s": ["00"]}`, adding signer
token `"11"` when the first `settings.save()` raises and the retry
succeeds does raise `BSMSOutOfSpace`, but persists `{"s": ["00", "11"]}` —
not the pre-operation `{"s": ["00"]}` the claim requires. -/
theorem C2_rollback_aliasing_bug :
    (BSMSSettings_add (fun n => n == 1) "s" "11"
        (⟨[["00"]], some [("s", 0)], some [("s", ["00"])], 0⟩ : PyBsms String)).2 =
      .error "BSMSOutOfSpace" ∧
    (BSMSSettings_add (fun n => n == 1) "s" "11"
        (⟨[["00"]], some [("s", 0)], some [("s", ["00"])], 0⟩ : PyBsms String)).1.persisted =
      some [("s", ["00", "11"])] ∧
    (some [("s", ["00", "11"])] : Option (List (String × List String))) ≠
      some [("s", ["00"])] :=
  ⟨rfl, rfl, by decide⟩

/-! ## Round-1 model lemmas -/

/-- `BSMSSettings.save` when the first `settings.save()` is granted. -/
theorem BSMSSettings_save_ok {V : Type} (saveOk : Nat → Bool) (st : PyBsms V)
    (orig : List (String × Nat)) (hsave : saveOk st.saveAttempts = true) :
    BSMSSettings_save saveOk st orig =
      ({ st with persisted := st.mem.map (derefDict st.store),
                 saveAttempts := st.saveAttempts + 1 }, .ok ()) := by
  unfold BSMSSettings_save settingsSave
  rw [if_pos hsave]
  rfl

/-- `BSMSSettings.add` succeeds whenever the first save is granted. -/
theorem BSMSSettings_add_ok {V : Type} (saveOk : Nat → Bool) (who : String) (v : V)
    (st : PyBsms V) (hsave : saveOk st.saveAttempts = true) :
    ∃ st', BSMSSettings_add saveOk who v st = (st', .ok ()) := by
  unfold BSMSSettings_add
  dsimp only
  cases hf : (st.mem.getD []).find? (fun kv => kv.1 == who) with
  | some kv =>
    dsimp only
    exact ⟨_, BSMSSettings_save_ok saveOk _ _ hsave⟩
  | none =>
    dsimp only
    exact ⟨_, BSMSSettings_save_ok saveOk _ _ hsave⟩

/-! ## Claim C9 -/

/-- C9: in signer round 1 (with a token that validates, a key-derivation
step that does not raise, and a granted save), a key description of length
exactly 80 is accepted and the round completes, while a description of
length 81 or more is rejected with the description-length error before any
signing or persistence occurs: the returned state is exactly the input
state, and the outcome is the same for every signing function `sign`. -/
theorem C9_description_boundary (P : CryptoPrims) (saveOk : Nat → Bool) (dtk : String)
    (sign : String → String) (tok desc : String) (st : PyBsms String)
    (hval : validate_token tok = .ok ())
    (hkdf : ∀ e : String, key_derivation_function P (normalize_token tok) ≠ .error e)
    (hsave : saveOk st.saveAttempts = true) :
    (desc.length = 80 → ∃ st' payload,
      bsms_signer_round1_model P saveOk dtk sign tok desc st =
        (st', .ok (payload, normalize_token tok))) ∧
    (81 ≤ desc.length →
      bsms_signer_round1_model P saveOk dtk sign tok desc st =
        (st, .error ("Description of the key, 80 char maximum (current: " ++
          toString desc.length ++ " char)"))) := by
  constructor
  · intro h80
    unfold bsms_signer_round1_model
    rw [hval]
    dsimp only
    rw [if_pos (by omega : desc.length ≤ 80)]
    cases hk : key_derivation_function P (normalize_token tok) with
    | error e => exact absurd hk (hkdf e)
    | ok keyOpt =>
      dsimp only
      obtain ⟨st', hst'⟩ := BSMSSettings_add_ok saveOk "s" (normalize_token tok) st hsave
      rw [hst']
      exact ⟨st', _, rfl⟩
  · intro h81
    unfold bsms_signer_round1_model
    rw [hval]
    dsimp only
    rw [if_neg (by omega)]

/-- Witness for C9: sentinel session, 80-character description. -/
theorem C9_description_boundary_witness :
    ∃ st' payload,
      bsms_signer_round1_model trivPrims (fun _ => true) "" (fun _ => "") "00"
          (String.mk (List.replicate 80 'a')) emptyPyBsms =
        (st', .ok (payload, normalize_token "00")) :=
  (C9_description_boundary trivPrims (fun _ => true) "" (fun _ => "") "00"
      (String.mk (List.replicate 80 'a')) emptyPyBsms rfl
      (fun _ hcon => Except.noConfusion hcon) rfl).1 rfl

/-! ## Claim C4 -/

/-- C4 counterexample: signer round 1 REJECTS the token `"0x"` followed by
exactly 16 hex characters — `validate_token` runs before `normalize_token`,
so the length check sees 18 characters — contradicting the claim that such
tokens are accepted with the prefix stripped. -/
theorem C4_counterexample :
    (bsms_signer_round1_model trivPrims (fun _ => true) "" (fun _ => "")
        "0x0123456789abcdef" "d" emptyPyBsms).2 =
      .error "Invalid token length. Expected 64 or 128 bits (16 or 32 hex characters)" ∧
    pureHex "0123456789abcdef" = true ∧
    ("0123456789abcdef" : String).length = 16 :=
  ⟨rfl, rfl, rfl⟩

/-- C4 amended: signer round 1 validates the raw input before stripping the
prefix, so a `0x`/`0X`-prefixed pure-hex token is accepted exactly when its
TOTAL length is 16 or 32 — that is, with 14 or 30 hex digits — and then the
canonical form (the hex digits, prefix stripped) is what reaches the
persisted SignerSession; a prefix followed by exactly 16 or 32 hex digits
has length 18 or 34 and is rejected by the token-length check. -/
theorem C4_prefixed_token_validation (P : CryptoPrims) (saveOk : Nat → Bool)
    (dtk desc : String) (sign : String → String) (x : Char) (core : String)
    (st : PyBsms String)
    (hx : x = 'x' ∨ x = 'X')
    (hhex : pureHex core = true)
    (hlen : core.length = 14 ∨ core.length = 30)
    (hdesc : desc.length ≤ 80)
    (hsave : saveOk st.saveAttempts = true)
    (hbs : ∃ bs, a2b_hex core = some bs) :
    (∃ st' payload,
      bsms_signer_round1_model P saveOk dtk sign (String.mk ('0' :: x :: core.data)) desc st =
        (st', .ok (payload, core))) ∧
    (∀ g : String, pureHex g = true → g.length = 16 ∨ g.length = 32 →
      (bsms_signer_round1_model P saveOk dtk sign (String.mk ('0' :: x :: g.data)) desc st).2 =
        .error "Invalid token length. Expected 64 or 128 bits (16 or 32 hex characters)") := by
  obtain ⟨bs, hbs⟩ := hbs
  have hdata : ∀ s : String, s.length = s.data.length := fun _ => rfl
  have hcne : core.data ≠ [] := by
    intro hnil
    have := hdata core
    rw [hnil] at this
    simp at this
    omega
  have hlentok : ∀ s : String, (String.mk ('0' :: x :: s.data)).length = s.length + 2 := by
    intro s
    rw [hdata, hdata]
    simp [List.length_cons]
  have hne00 : ∀ s : String, 14 ≤ s.length → String.mk ('0' :: x :: s.data) ≠ "00" := by
    intro s hs hcon
    have := congrArg String.length hcon
    rw [hlentok] at this
    rw [show ("00" : String).length = 2 from rfl] at this
    omega
  have hval : ∀ s : String, s.data ≠ [] → pureHex s = true → 14 ≤ s.length →
      (s.length + 2 = 16 ∨ s.length + 2 = 32) →
      validate_token (String.mk ('0' :: x :: s.data)) = .ok () := by
    intro s hsne hshex hs14 hslen
    unfold validate_token
    rw [if_neg (hne00 s hs14)]
    rw [if_pos (pyInt16Parses_of_prefixed_hex x hx s hsne hshex)]
    rw [if_pos (by rw [hlentok]; omega)]
  constructor
  · have hnorm : normalize_token (String.mk ('0' :: x :: core.data)) = core := by
      rcases hx with rfl | rfl <;> rfl
    unfold bsms_signer_round1_model
    rw [hval core hcne hhex (by omega) (by omega)]
    dsimp only
    rw [if_pos hdesc, hnorm]
    have hne00' : core ≠ "00" := by
      intro hcon
      have := congrArg String.length hcon
      rw [show ("00" : String).length = 2 from rfl] at this
      omega
    rw [show key_derivation_function P core =
        .ok (some ((P.pbkdf2_sha512 (utf8Encode "No SPOF") bs 2048).take 32)) from by
      unfold key_derivation_function
      rw [if_neg hne00', hbs]]
    dsimp only
    obtain ⟨st', hst'⟩ := BSMSSettings_add_ok saveOk "s" core st hsave
    rw [hst']
    exact ⟨st', _, rfl⟩
  · intro g hg hglen
    have hgne : g.data ≠ [] := by
      intro hnil
      have hgl := hdata g
      rw [hnil] at hgl
      simp at hgl
      omega
    unfold bsms_signer_round1_model
    rw [show validate_token (String.mk ('0' :: x :: g.data)) =
        .error "Invalid token length. Expected 64 or 128 bits (16 or 32 hex characters)" from by
      unfold validate_token
      rw [if_neg (hne00 g (by omega))]
      rw [if_pos (pyInt16Parses_of_prefixed_hex x hx g hgne hg)]
      rw [if_neg (by rw [hlentok]; omega)]]

/-- Witness for C4 (amended) at `0x` + 14 hex digits. -/
theorem C4_prefixed_token_validation_witness :
    ∃ st' payload,
      bsms_signer_round1_model trivPrims (fun _ => true) "" (fun _ => "")
          (String.mk ('0' :: 'x' :: ("0123456789abcd" : String).data)) "d" emptyPyBsms =
        (st', .ok (payload, "0123456789abcd")) :=
  (C4_prefixed_token_validation trivPrims (fun _ => true) "" "d" (fun _ => "") 'x'
      "0123456789abcd" emptyPyBsms (Or.inl rfl) (by decide) (Or.inl rfl) (by decide) rfl
      ⟨[1, 35, 69, 103, 137, 171, 205], rfl⟩).1

end BSMS
